import Mathlib

/-
  Verification development for the Email Templates core (core.js):
  the {{placeholder}} rendering engine (render, missingFields, formatDate)
  and the folder/template store CRUD layer.

  Modelling conventions:
  - JS values that can appear in a data mapping are modelled by `JSValue`
    (strings, integer numbers, booleans, null, undefined); JS truthiness is
    `jsFalsy`, JS String(...) coercion is `jsToString`.
  - A data object is an association list with unique keys; property access
    `key in data` / `data[key]` is `lookup`.
  - The host environment pieces the code calls into are collected in `Host`:
    `new Date(x)` general parsing (engine defined for non YYYY-MM-DD inputs),
    the two `Intl.DateTimeFormat` formatters (locale dependent), and the local
    timezone offset in minutes. A JS `Date` is modelled as minutes since the
    epoch (UTC); a date-only Intl formatter is a function of the local day
    number.
  - The regex /{{\s*([a-z0-9_]+)(?:\|([a-z]+))?\s*}}/gi is modelled by the
    character-level scanner `scanMatch` / `matchBody`; since the character
    classes of adjacent regex pieces are disjoint, the greedy match without
    backtracking computed here is exactly what the regex engine finds.
  - Store operations are pure functions on `Store`; the identifiers and
    timestamps produced by uid() / nowISO() are passed in as arguments.
-/

namespace EmailTemplates

/-- Model of JS values that flow through the data mapping. -/
inductive JSValue where
  | vStr (s : String)
  | vNum (n : Int)
  | vBool (b : Bool)
  | vNull
  | vUndef
deriving DecidableEq

/-- JS falsiness: '' , 0, false, null, undefined. -/
def jsFalsy : JSValue → Bool
  | .vStr s => s.data.isEmpty
  | .vNum n => n == 0
  | .vBool b => !b
  | .vNull => true
  | .vUndef => true

/-- JS String(...) coercion. -/
def jsToString : JSValue → String
  | .vStr s => s
  | .vNum n => toString n
  | .vBool b => if b then ("true") else ("false")
  | .vNull => "null"
  | .vUndef => "undefined"

/-- A JS data object: association list with the first binding winning. -/
abbrev JSData := List (String × JSValue)

/-- Property lookup: `key in data` is `(lookup data key).isSome`,
`data[key]` is `(lookup data key).getD JSValue.vUndef`. -/
def lookup : JSData → String → Option JSValue
  | [], _ => none
  | (k, v) :: rest, key => if k = key then some v else lookup rest key

/-- Characters matched by the regex class [a-z0-9_] under the /i flag
(codepoints of a-z, A-Z, 0-9, _). -/
def isWordChar (c : Char) : Bool :=
  (97 ≤ c.toNat && c.toNat ≤ 122) || (65 ≤ c.toNat && c.toNat ≤ 90) ||
  (48 ≤ c.toNat && c.toNat ≤ 57) || c.toNat == 95

/-- Characters matched by [a-z] under the /i flag (a-z, A-Z). -/
def isAsciiLetter (c : Char) : Bool :=
  (97 ≤ c.toNat && c.toNat ≤ 122) || (65 ≤ c.toNat && c.toNat ≤ 90)

/-- ASCII digit 0-9. -/
def isDigitChar (c : Char) : Bool :=
  48 ≤ c.toNat && c.toNat ≤ 57

def digitVal (c : Char) : Nat := c.toNat - 48

/-- Characters matched by the regex class \s in JS (whitespace and line
terminators, by codepoint). -/
def jsSpace (c : Char) : Bool :=
  c.toNat == 32 || (9 ≤ c.toNat && c.toNat ≤ 13) || c.toNat == 160 ||
  c.toNat == 0x1680 || (0x2000 ≤ c.toNat && c.toNat ≤ 0x200A) ||
  c.toNat == 0x2028 || c.toNat == 0x2029 || c.toNat == 0x202F ||
  c.toNat == 0x205F || c.toNat == 0x3000 || c.toNat == 0xFEFF

/-- JS String.prototype.trim: strip \s from both ends. -/
def jsTrim (s : String) : String :=
  String.mk (((s.data.dropWhile jsSpace).reverse.dropWhile jsSpace).reverse)

/-- Gregorian leap year. -/
def isLeapYear (y : Nat) : Bool :=
  y % 4 == 0 && (y % 100 != 0 || y % 400 == 0)

def daysInMonth (y m : Nat) : Nat :=
  if m == 2 then (if isLeapYear y then 29 else 28)
  else if m == 4 || m == 6 || m == 9 || m == 11 then 30 else 31

/-- Component validity the JS engine enforces when parsing an ISO
date-time string ("2024-02-30T12:00:00" is an Invalid Date). -/
def validYMD (y m d : Nat) : Bool :=
  1 ≤ m && m ≤ 12 && 1 ≤ d && d ≤ daysInMonth y m

/-- Shape and digits of /^\d{4}-\d{2}-\d{2}$/ together with the parsed
year, month, day components. -/
def readYMD : List Char → Option (Nat × Nat × Nat)
  | [y1, y2, y3, y4, h1, m1, m2, h2, d1, d2] =>
    if h1 == '-' && h2 == '-' && isDigitChar y1 && isDigitChar y2 &&
       isDigitChar y3 && isDigitChar y4 && isDigitChar m1 && isDigitChar m2 &&
       isDigitChar d1 && isDigitChar d2 then
      some (1000 * digitVal y1 + 100 * digitVal y2 + 10 * digitVal y3 + digitVal y4,
            10 * digitVal m1 + digitVal m2,
            10 * digitVal d1 + digitVal d2)
    else none
  | _ => none

/-- Day number of a Gregorian calendar date (model of the host calendar,
days since 1970-01-01). -/
def daysFromCivil (y m d : Nat) : Int :=
  let yi : Int := if m ≤ 2 then (y : Int) - 1 else (y : Int)
  let era : Int := yi.fdiv 400
  let yoe : Int := yi - era * 400
  let mp : Int := ((m : Int) + 9) % 12
  let doy : Int := (153 * mp + 2).fdiv 5 + (d : Int) - 1
  let doe : Int := yoe * 365 + yoe.fdiv 4 - yoe.fdiv 100 + doy
  era * 146097 + doe - 719468

/-- Host environment: `new Date(x)` general parsing for inputs that are not
exactly YYYY-MM-DD (engine defined), the two ambient-locale
Intl.DateTimeFormat formatters as functions of the local day number, and
the local timezone offset in minutes (local = UTC + tzOffset). -/
structure Host where
  generalParse : JSValue → Option Int
  fmtLong : Int → String
  fmtShort : Int → String
  tzOffset : Int

/-- Model of `new Date(s + "T12:00:00")` for s matching /^\d{4}-\d{2}-\d{2}$/:
an ISO date-time without timezone designator is interpreted in local time,
so the UTC timestamp (in minutes) is local noon of that day minus the
offset; invalid components give an Invalid Date (none). -/
def parseYMDNoonMin (tz : Int) (l : List Char) : Option Int :=
  match readYMD l with
  | some (y, m, d) =>
    if validYMD y m d then some (daysFromCivil y m d * 1440 + 720 - tz) else none
  | none => none

/-- Embedding of formatDate(input, style): falsy input gives '', a value of
shape YYYY-MM-DD is parsed as local noon, anything else goes through the
host general date parsing; an Invalid Date returns the input unchanged;
otherwise the 'short' style uses the 2-digit-year abbreviated-month
formatter and every other style the full formatter, applied to the local
calendar day of the timestamp. -/
def formatDate (H : Host) (input : JSValue) (style : String) : JSValue :=
  if jsFalsy input then JSValue.vStr ("") else
  let s := jsToString input
  let d : Option Int :=
    if (readYMD s.data).isSome then parseYMDNoonMin H.tzOffset s.data
    else H.generalParse input
  match d with
  | none => input
  | some t =>
    let day := (t + H.tzOffset).fdiv 1440
    JSValue.vStr (if style = "short" then H.fmtShort day else H.fmtLong day)

/-- Embedding of key.startsWith('date_') (case sensitive). -/
def startsWithDate : List Char → Bool
  | 'd' :: 'a' :: 't' :: 'e' :: '_' :: _ => true
  | _ => false

/-- The replacement the render callback produces for one matched token
(the result of String.prototype.replace coerces the callback value to a
string, so the date branch returning raw is jsToString of it). -/
def tokenReplacement (H : Host) (data : JSData) (key : List Char)
    (filt : Option (List Char)) : String :=
  let raw : JSValue := (lookup data (String.mk key)).getD (JSValue.vStr (""))
  if jsFalsy raw then ("") else
  if startsWithDate key then
    if filt = some (("shortdate").data) then jsToString (formatDate H raw ("short"))
    else if filt = some (("longdate").data) then jsToString (formatDate H raw ("long"))
    else jsToString raw
  else jsToString raw

/-- One attempted regex match of {{\s*([a-z0-9_]+)(?:\|([a-z]+))?\s*}} at the
position right after an opening "{{": greedy whitespace, a nonempty run of
word characters (the key), an optional |letters filter, whitespace, then
"}}". The adjacent character classes are pairwise disjoint and each is
disjoint from the characters that follow it, so greedy matching with no
backtracking is exact. Returns (key, filter?, rest of the input). -/
def matchBody (cs : List Char) : Option (List Char × Option (List Char) × List Char) :=
  let cs1 := cs.dropWhile jsSpace
  let key := cs1.takeWhile isWordChar
  if key.isEmpty then none else
  let cs2 := cs1.drop key.length
  let fe : Option (List Char) × List Char :=
    match cs2 with
    | '|' :: ds =>
      let f := ds.takeWhile isAsciiLetter
      if f.isEmpty then (none, cs2) else (some f, ds.drop f.length)
    | _ => (none, cs2)
  let cs3 := fe.2.dropWhile jsSpace
  match cs3 with
  | '}' :: '}' :: rest => some (key, fe.1, rest)
  | _ => none

/-- A token match attempt at the current scan position: the regex literal
"{{" must be present, then matchBody. -/
def scanMatch (l : List Char) : Option (List Char × Option (List Char) × List Char) :=
  match l with
  | '{' :: '{' :: cs => matchBody cs
  | _ => none

/-- The global-replace scan of String.prototype.replace: at each position
either a token matches (replace it and continue after it) or the character
is emitted unchanged and the scan advances one position. Fuel is an upper
bound on the number of scan steps; the initial fuel, the input length,
always suffices, and exhausted fuel returns the remainder unchanged. -/
def renderLoop (H : Host) (data : JSData) : Nat → List Char → List Char
  | 0, l => l
  | _ + 1, [] => []
  | fuel + 1, c :: cs =>
    match scanMatch (c :: cs) with
    | some (key, filt, rest) =>
      (tokenReplacement H data key filt).data ++ renderLoop H data fuel rest
    | none => c :: renderLoop H data fuel cs

/-- Embedding of render(template, data); a non-string or missing template
is outside the model (the `template` argument is a string), and the empty
string is handled by the scan returning []. -/
def render (H : Host) (template : String) (data : JSData) : String :=
  String.mk (renderLoop H data template.data.length template.data)

/-- Does a token match start exactly here? -/
def tokenAt (l : List Char) : Bool := (scanMatch l).isSome

/-- Does a token match start at any position of the string? -/
def hasToken : List Char → Bool
  | [] => false
  | c :: cs => tokenAt (c :: cs) || hasToken cs

/-- The key-collection scan of missingFields: the same token grammar
(the filter suffix is not captured), every matched key in match order. -/
def scanKeysLoop : Nat → List Char → List String
  | 0, _ => []
  | _ + 1, [] => []
  | fuel + 1, c :: cs =>
    match scanMatch (c :: cs) with
    | some (key, _, rest) => String.mk key :: scanKeysLoop fuel rest
    | none => scanKeysLoop fuel cs

/-- Insertion-order deduplication, keeping the first occurrence of each
element (the iteration order of a JS Set). -/
def firstDedupAux (seen : List String) : List String → List String
  | [] => []
  | x :: xs =>
    if x ∈ seen then firstDedupAux seen xs
    else x :: firstDedupAux (x :: seen) xs

def firstDedup (l : List String) : List String := firstDedupAux [] l

/-- The emptiness test of missingFields on one key:
val === undefined || val === null || String(val).trim() === ''. -/
def missingVal (data : JSData) (k : String) : Bool :=
  match lookup data k with
  | none => true
  | some v =>
    v == JSValue.vUndef || v == JSValue.vNull || (jsTrim (jsToString v)).data.isEmpty

/-- Embedding of missingFields(template, data): collect the set of distinct
keys in first-appearance order, keep those whose value is missing. -/
def missingFields (template : String) (data : JSData) : List String :=
  (firstDedup (scanKeysLoop template.data.length template.data)).filter
    (fun k => missingVal data k)

/- ------------------------------------------------------------------
   Store data model and CRUD layer
   ------------------------------------------------------------------ -/

structure Folder where
  id : String
  name : String
  createdAt : String
deriving DecidableEq

structure Template where
  id : String
  name : String
  subject : String
  content : String
  folderId : Option String
  createdAt : String
  updatedAt : String
deriving DecidableEq

structure Settings where
  sampleSeeded : Bool
deriving DecidableEq

structure Store where
  version : Nat
  folders : List Folder
  templates : List Template
  settings : Settings
deriving DecidableEq

/-- A patch object for updateTemplate: a field set to none is absent
(undefined) in the patch. -/
structure Patch where
  name : Option String
  subject : Option String
  content : Option String
  folderId : Option (Option String)
deriving DecidableEq

/-- Update the first element satisfying the predicate (mutation through the
reference returned by Array.prototype.find). -/
def updateFirst (q : α → Bool) (f : α → α) : List α → List α
  | [] => []
  | x :: xs => if q x then f x :: xs else x :: updateFirst q f xs

/-- The sample template seeded on first run, with the uid() and nowISO()
results passed in. -/
def sampleTemplate (freshId now : String) : Template :=
  { id := freshId
    name := "Sample — Quick Follow-up"
    subject := "Quick follow-up with \x7b\x7bcompany_name\x7d\x7d"
    content := "Hi \x7b\x7bfirst_name\x7d\x7d,\n\nNice speaking with \x7b\x7bspoke_to\x7d\x7d at \x7b\x7bcompany_name\x7d\x7d.\n\nAs mentioned, compared to \x7b\x7bcompetitor\x7d\x7d, we can streamline your process and reduce admin. \nAre you free on \x7b\x7bdate_1|longdate\x7d\x7d or \x7b\x7bdate_2|shortdate\x7d\x7d to chat?\n\nThanks,\n— Your Name"
    folderId := none
    createdAt := now
    updatedAt := now }

/-- Embedding of ensureSampleTemplate: a no-op once settings.sampleSeeded is
true; otherwise push the sample only when the template list is empty, and
set sampleSeeded to true in either case. -/
def ensureSampleTemplate (freshId now : String) (s : Store) : Store :=
  if s.settings.sampleSeeded = true then s
  else
    let s1 :=
      if s.templates.length = 0 then
        { s with templates := s.templates ++ [sampleTemplate freshId now] }
      else s
    { s1 with settings := { s1.settings with sampleSeeded := true } }

/-- Embedding of createFolder(name):
String(name || 'New Folder').trim() || 'New Folder'. -/
def createFolder (freshId now : String) (name : String) (s : Store) : Folder × Store :=
  let nm0 := if name = "" then "New Folder" else name
  let folder : Folder :=
    { id := freshId
      name := if (jsTrim nm0).data.isEmpty then "New Folder" else jsTrim nm0
      createdAt := now }
  (folder, { s with folders := s.folders ++ [folder] })

/-- Embedding of renameFolder(id, newName): not-found returns false; an
empty-after-trim new name keeps the old name. -/
def renameFolder (id newName : String) (s : Store) : Bool × Store :=
  if s.folders.any (fun f => f.id == id) then
    let upd := fun f : Folder =>
      { f with name := if (jsTrim newName).data.isEmpty then f.name else jsTrim newName }
    (true, { s with folders := updateFirst (fun f => f.id == id) upd s.folders })
  else (false, s)

/-- Embedding of deleteFolder(id, mode): findIndex plus splice(idx, 1) on the
folder list is removal of the first folder with this id (eraseP); in
'deleteTemplates' mode the templates of the folder are filtered out, in
every other mode their folderId is set to null. -/
def deleteFolder (id mode : String) (s : Store) : Bool × Store :=
  if s.folders.any (fun f => f.id == id) then
    let templates :=
      if mode = "deleteTemplates" then
        s.templates.filter (fun t => t.folderId ≠ some id)
      else
        s.templates.map (fun t =>
          if t.folderId = some id then { t with folderId := none } else t)
    (true,
     { s with
        folders := s.folders.eraseP (fun f => f.id == id)
        templates := templates })
  else (false, s)

/-- Embedding of moveTemplatesToFolder(templateIds, folderId): every template
whose id is listed gets folderId || null; always returns true. Note that
updatedAt is not touched. -/
def moveTemplatesToFolder (templateIds : List String) (folderId : Option String)
    (s : Store) : Bool × Store :=
  let nfid : Option String :=
    match folderId with
    | some fid => if fid = "" then none else some fid
    | none => none
  let templates := s.templates.map (fun t =>
    if t.id ∈ templateIds then { t with folderId := nfid } else t)
  (true, { s with templates := templates })

/-- Embedding of createTemplate: name defaulted like createFolder, subject
and content trimmed, createdAt = updatedAt = now. -/
def createTemplate (freshId now : String) (name subject content : String)
    (folderId : Option String) (s : Store) : Template × Store :=
  let nm0 := if name = "" then "Untitled Template" else name
  let t : Template :=
    { id := freshId
      name := if (jsTrim nm0).data.isEmpty then "Untitled Template" else jsTrim nm0
      subject := jsTrim subject
      content := jsTrim content
      folderId := folderId
      createdAt := now
      updatedAt := now }
  (t, { s with templates := s.templates ++ [t] })

/-- The field updates updateTemplate applies to the found template: only
fields present in the patch, an empty-after-trim name keeps the old name,
subject is trimmed, content taken verbatim, folderId replaced including
explicit null; updatedAt is always set to now. -/
def applyPatch (now : String) (p : Patch) (t : Template) : Template :=
  let t1 := match p.name with
    | some nm => { t with name := if (jsTrim nm).data.isEmpty then t.name else jsTrim nm }
    | none => t
  let t2 := match p.subject with
    | some sb => { t1 with subject := jsTrim sb }
    | none => t1
  let t3 := match p.content with
    | some c => { t2 with content := c }
    | none => t2
  let t4 := match p.folderId with
    | some fid => { t3 with folderId := fid }
    | none => t3
  { t4 with updatedAt := now }

/-- Embedding of updateTemplate(id, patch): false when no template has the
id, otherwise patch the first template found with it. -/
def updateTemplate (now id : String) (p : Patch) (s : Store) : Bool × Store :=
  if s.templates.any (fun t => t.id == id) then
    (true,
     { s with templates := updateFirst (fun t => t.id == id) (applyPatch now p) s.templates })
  else (false, s)

/-- Embedding of deleteTemplate(id): findIndex plus splice(i, 1) is removal
of the first template with the id. -/
def deleteTemplate (id : String) (s : Store) : Bool × Store :=
  if s.templates.any (fun t => t.id == id) then
    (true, { s with templates := s.templates.eraseP (fun t => t.id == id) })
  else (false, s)

/-- A concrete host instantiation used by concrete evaluations: general
parsing always fails, the locale formatters tag the local day number. -/
def host0 : Host :=
  { generalParse := fun _ => none
    fmtLong := fun n => "LONG:" ++ toString n
    fmtShort := fun n => "SHORT:" ++ toString n
    tzOffset := 0 }

/-- A concrete host with a UTC-8 local timezone (offset -480 minutes). -/
def host1 : Host :=
  { host0 with tzOffset := -480 }

/-- A concrete store for the C4 witness: one folder holding two templates. -/
def storeC4 : Store :=
  ⟨1, [⟨"f1", "F", "T0"⟩],
   [⟨"t1", "A", "", "c1", some ("f1"), "T0", "T0"⟩,
    ⟨"t2", "B", "", "c2", some ("f1"), "T0", "T0"⟩],
   ⟨true⟩⟩

/-- The template and store used by the C6 witness. -/
def tplC6 : Template := ⟨"t1", "Name", "Subj", "Body", none, "T0", "T0"⟩

def storeC6 : Store := ⟨1, [], [tplC6], ⟨true⟩⟩

/- ------------------------------------------------------------------
   Helper lemmas
   ------------------------------------------------------------------ -/

theorem isWordChar_not_jsSpace {c : Char} (h : isWordChar c = true) : jsSpace c = false := by
  simp [isWordChar, jsSpace] at *
  omega

theorem takeWhile_append_all {p : Char → Bool} {l : List Char} (h : ∀ c ∈ l, p c = true)
    {y : Char} (hy : p y = false) (t : List Char) :
    (l ++ y :: t).takeWhile p = l := by
  induction l with
  | nil => simp [List.takeWhile_cons, hy]
  | cons a as ih =>
    have ha := h a (by simp)
    simp only [List.cons_append, List.takeWhile_cons, ha, if_true]
    rw [ih (fun c hc => h c (by simp [hc]))]

theorem matchBody_key {K : List Char} (hne : K ≠ []) (hw : ∀ c ∈ K, isWordChar c = true) :
    matchBody (K ++ ['}', '}']) = some (K, none, []) := by
  have hdrop : (K ++ ['}', '}']).dropWhile jsSpace = K ++ ['}', '}'] := by
    obtain ⟨k0, K', rfl⟩ := List.exists_cons_of_ne_nil hne
    have h0 : jsSpace k0 = false := isWordChar_not_jsSpace (hw k0 (by simp))
    simp [List.dropWhile_cons, h0]
  have htake : (K ++ ['}', '}']).takeWhile isWordChar = K :=
    takeWhile_append_all hw (by decide) _
  have hemp : K.isEmpty = false := by
    cases K with
    | nil => exact absurd rfl hne
    | cons a as => rfl
  simp only [matchBody, hdrop, htake, hemp, Bool.false_eq_true, if_false,
    List.drop_left]
  rfl

theorem scanMatch_token {K : List Char} (hne : K ≠ []) (hw : ∀ c ∈ K, isWordChar c = true) :
    scanMatch ('{' :: '{' :: (K ++ ['}', '}'])) = some (K, none, []) := by
  simp [scanMatch, matchBody_key hne hw]

theorem renderLoop_of_token_free (H : Host) (d : JSData) :
    ∀ (fuel : Nat) (l : List Char), hasToken l = false → renderLoop H d fuel l = l := by
  intro fuel
  induction fuel with
  | zero => intro l _; rfl
  | succ n ih =>
    intro l hl
    match l with
    | [] => rfl
    | c :: cs =>
      simp only [hasToken, Bool.or_eq_false_iff] at hl
      obtain ⟨h1, h2⟩ := hl
      cases hsm : scanMatch (c :: cs) with
      | some v => rw [tokenAt, hsm] at h1; exact absurd h1 (by simp)
      | none => simp only [renderLoop, hsm]; rw [ih cs h2]

theorem render_eq_self_of_token_free (H : Host) (d : JSData) (s : String)
    (h : hasToken s.data = false) : render H s d = s := by
  unfold render
  rw [renderLoop_of_token_free H d _ _ h]

theorem firstDedupAux_nodup_and_fresh (l : List String) :
    ∀ seen : List String, (firstDedupAux seen l).Nodup ∧ ∀ x ∈ firstDedupAux seen l, x ∉ seen := by
  induction l with
  | nil => intro seen; exact ⟨List.nodup_nil, by simp [firstDedupAux]⟩
  | cons a as ih =>
    intro seen
    by_cases ha : a ∈ seen
    · simpa [firstDedupAux, ha] using ih seen
    · have h2 := ih (a :: seen)
      constructor
      · simp only [firstDedupAux, ha, if_false, List.nodup_cons]
        refine ⟨fun hmem => ?_, h2.1⟩
        exact (h2.2 a hmem) (by simp)
      · intro x hx
        simp only [firstDedupAux, ha, if_false, List.mem_cons] at hx
        rcases hx with rfl | hx
        · exact ha
        · intro hxs; exact (h2.2 x hx) (by simp [hxs])

theorem firstDedupAux_sublist (l : List String) :
    ∀ seen : List String, (firstDedupAux seen l).Sublist l := by
  induction l with
  | nil => intro seen; simp [firstDedupAux]
  | cons a as ih =>
    intro seen
    by_cases ha : a ∈ seen
    · simp only [firstDedupAux, ha, if_true]
      exact (ih seen).cons a
    · simp only [firstDedupAux, ha, if_false]
      exact (ih (a :: seen)).cons₂ a

theorem firstDedupAux_mem (l : List String) :
    ∀ (seen : List String) (x : String),
      x ∈ firstDedupAux seen l ↔ x ∈ l ∧ x ∉ seen := by
  induction l with
  | nil => intro seen x; simp [firstDedupAux]
  | cons a as ih =>
    intro seen x
    by_cases ha : a ∈ seen
    · simp only [firstDedupAux, ha, if_true, ih, List.mem_cons]
      constructor
      · rintro ⟨hx, hs⟩; exact ⟨Or.inr hx, hs⟩
      · rintro ⟨rfl | hx, hs⟩
        · exact absurd ha hs
        · exact ⟨hx, hs⟩
    · simp only [firstDedupAux, ha, if_false, List.mem_cons, ih]
      constructor
      · rintro (rfl | ⟨hx, hs⟩)
        · exact ⟨Or.inl rfl, ha⟩
        · refine ⟨Or.inr hx, fun hxs => hs (by simp [hxs])⟩
      · rintro ⟨rfl | hx, hs⟩
        · exact Or.inl rfl
        · by_cases hxa : x = a
          · exact Or.inl hxa
          · exact Or.inr ⟨hx, by simp [hs, hxa]⟩

theorem firstDedup_nodup (l : List String) : (firstDedup l).Nodup :=
  (firstDedupAux_nodup_and_fresh l []).1

theorem firstDedup_sublist (l : List String) : (firstDedup l).Sublist l :=
  firstDedupAux_sublist l []

theorem firstDedup_mem (l : List String) (x : String) : x ∈ firstDedup l ↔ x ∈ l := by
  simp [firstDedup, firstDedupAux_mem]

theorem fdiv_noon (D : Int) : (D * 1440 + 720).fdiv 1440 = D := by
  rw [Int.fdiv_eq_ediv _ (by decide)]
  omega

theorem render_single_token (H : Host) (d : JSData) (l : List Char) (hne : l ≠ [])
    (hw : ∀ c ∈ l, isWordChar c = true) :
    render H (String.mk ('{' :: '{' :: (l ++ ['}', '}']))) d = tokenReplacement H d l none := by
  unfold render
  simp only [List.length_cons]
  simp only [renderLoop, scanMatch_token hne hw]
  simp

theorem updateFirst_eq_map_of_nodup (f : Template → Template) (id : String)
    (l : List Template) (h : (l.map Template.id).Nodup) :
    updateFirst (fun t => t.id == id) f l
      = l.map (fun t => if t.id = id then f t else t) := by
  induction l with
  | nil => rfl
  | cons a as ih =>
    simp only [List.map_cons, List.nodup_cons] at h
    by_cases ha : a.id = id
    · simp only [updateFirst, ha, beq_self_eq_true, if_true, List.map_cons]
      have hrest : ∀ t ∈ as, t.id ≠ id := by
        intro t ht hti
        exact h.1 (by rw [ha, ← hti]; exact List.mem_map_of_mem Template.id ht)
      have : as.map (fun t => if t.id = id then f t else t) = as.map (fun t => t) :=
        List.map_congr_left (fun t ht => by simp [hrest t ht])
      rw [this, List.map_id']
    · have hb : (a.id == id) = false := by simp [ha]
      simp only [updateFirst, hb, Bool.false_eq_true, if_false, List.map_cons, ha, ih h.2]

theorem eraseP_id_not_mem (id : String) (l : List Folder)
    (h : (l.map Folder.id).Nodup) :
    id ∉ (l.eraseP (fun f => f.id == id)).map Folder.id := by
  induction l with
  | nil => simp [List.eraseP]
  | cons a as ih =>
    simp only [List.map_cons, List.nodup_cons] at h
    by_cases ha : a.id = id
    · rw [List.eraseP_cons_of_pos (by simp [ha])]
      intro hmem
      exact h.1 (by rw [ha]; exact hmem)
    · rw [List.eraseP_cons_of_neg (by simp [ha])]
      simp only [List.map_cons, List.mem_cons]
      rintro (rfl | hmem)
      · exact ha rfl
      · exact ih h.2 hmem

theorem matchBody_key_filt {K f : List Char} (hne : K ≠ []) (hw : ∀ c ∈ K, isWordChar c = true)
    (hfne : f ≠ []) (hfl : ∀ c ∈ f, isAsciiLetter c = true) :
    matchBody (K ++ '|' :: (f ++ ['}', '}'])) = some (K, some f, []) := by
  have hdrop : (K ++ '|' :: (f ++ ['}', '}'])).dropWhile jsSpace = K ++ '|' :: (f ++ ['}', '}']) := by
    obtain ⟨k0, K', rfl⟩ := List.exists_cons_of_ne_nil hne
    have h0 : jsSpace k0 = false := isWordChar_not_jsSpace (hw k0 (by simp))
    simp [List.dropWhile_cons, h0]
  have htake : (K ++ '|' :: (f ++ ['}', '}'])).takeWhile isWordChar = K :=
    takeWhile_append_all hw (by decide) _
  have hemp : K.isEmpty = false := by
    cases K with
    | nil => exact absurd rfl hne
    | cons a as => rfl
  have hftake : (f ++ '}' :: ['}']).takeWhile isAsciiLetter = f :=
    takeWhile_append_all hfl (by decide) _
  have hfemp : f.isEmpty = false := by
    cases f with
    | nil => exact absurd rfl hfne
    | cons a as => rfl
  simp only [matchBody, hdrop, htake, hemp, Bool.false_eq_true, if_false, List.drop_left]
  simp only [show f ++ ['}', '}'] = f ++ '}' :: ['}'] from rfl, hftake, hfemp,
    Bool.false_eq_true, if_false, List.drop_left]
  rfl

theorem scanMatch_token_filt {K f : List Char} (hne : K ≠ []) (hw : ∀ c ∈ K, isWordChar c = true)
    (hfne : f ≠ []) (hfl : ∀ c ∈ f, isAsciiLetter c = true) :
    scanMatch ('{' :: '{' :: (K ++ '|' :: (f ++ ['}', '}']))) = some (K, some f, []) := by
  simp [scanMatch, matchBody_key_filt hne hw hfne hfl]

theorem render_single_token_filt (H : Host) (d : JSData) (l f : List Char) (hne : l ≠ [])
    (hw : ∀ c ∈ l, isWordChar c = true) (hfne : f ≠ []) (hfl : ∀ c ∈ f, isAsciiLetter c = true) :
    render H (String.mk ('{' :: '{' :: (l ++ '|' :: (f ++ ['}', '}'])))) d
      = tokenReplacement H d l (some f) := by
  unfold render
  simp only [List.length_cons]
  simp only [renderLoop, scanMatch_token_filt hne hw hfne hfl]
  simp

/- ------------------------------------------------------------------
   Claim theorems
   ------------------------------------------------------------------ -/

/-- C1: whenever render matches a placeholder token whose key has no entry
in the data mapping, or whose entry is falsy (empty string, null, undefined,
zero, false), the replacement substituted for that token is the empty
string, never the literal token text (render is a total function of the
embedding, so it never throws); in particular for every nonempty
word-character key K that is not a date key, render("{{K}}", {}) = "" and
render("{{K}}", {K: "v"}) = "v". -/
theorem render_empty_on_missing_or_falsy :
    ∀ (H : Host),
      (∀ (data : JSData) (key : List Char) (filt : Option (List Char)),
        (lookup data (String.mk key) = none ∨
          jsFalsy ((lookup data (String.mk key)).getD (JSValue.vStr (""))) = true) →
        tokenReplacement H data key filt = "") ∧
      (∀ K : String, K.data ≠ [] → (∀ c ∈ K.data, isWordChar c = true) →
        startsWithDate K.data = false →
        render H ("\x7b\x7b" ++ K ++ "\x7d\x7d") [] = "" ∧
        render H ("\x7b\x7b" ++ K ++ "\x7d\x7d") [(K, JSValue.vStr ("v"))] = "v") := by
  intro H
  constructor
  · intro data key filt h
    have hf : jsFalsy ((lookup data (String.mk key)).getD (JSValue.vStr (""))) = true := by
      rcases h with h | h
      · rw [h]; rfl
      · exact h
    unfold tokenReplacement
    simp only [hf, if_true]
  · intro K hne hw hd
    have hconv : ("\x7b\x7b" ++ K ++ "\x7d\x7d") = String.mk ('{' :: '{' :: (K.data ++ ['}', '}'])) := by
      obtain ⟨l⟩ := K
      rfl
    rw [hconv]
    constructor
    · rw [render_single_token H _ K.data hne hw]
      rfl
    · rw [render_single_token H _ K.data hne hw]
      unfold tokenReplacement
      have hmk : String.mk K.data = K := rfl
      rw [hmk]
      simp [lookup, jsFalsy, jsToString, hd]

/-- Witness for C1 at the concrete key "first_name". -/
theorem render_empty_on_missing_or_falsy_witness :
    render host0 ("\x7b\x7b" ++ "first_name" ++ "\x7d\x7d") [] = "" ∧
    render host0 ("\x7b\x7b" ++ "first_name" ++ "\x7d\x7d")
      [("first_name", JSValue.vStr ("v"))] = "v" :=
  (render_empty_on_missing_or_falsy host0).2 "first_name" (by decide) (by decide) (by decide)

/-- C10: the token grammar matches keys and filter names case-insensitively,
but data lookup and filter dispatch are case-sensitive: with a mapping whose
only key is the lowercase first_name, render("{{FIRST_NAME}}", data)
substitutes the empty string, and for every non-empty string value v,
render("{{date_1|LONGDATE}}", {date_1: v}) substitutes the raw value v
rather than long-date formatting. -/
theorem render_case_sensitive_lookup_and_filter :
    ∀ (H : Host),
      (∀ x : JSValue,
        render H "\x7b\x7bFIRST_NAME\x7d\x7d" [("first_name", x)] = "") ∧
      (∀ v : String, v ≠ "" →
        render H "\x7b\x7bdate_1|LONGDATE\x7d\x7d" [("date_1", JSValue.vStr v)] = v) := by
  intro H
  constructor
  · intro x
    rw [show ("\x7b\x7bFIRST_NAME\x7d\x7d" : String)
          = String.mk ('{' :: '{' :: (("FIRST_NAME").data ++ ['}', '}'])) from rfl]
    rw [render_single_token H _ _ (by decide) (by decide)]
    rfl
  · intro v hv
    obtain ⟨vd⟩ := v
    have hvd : vd.isEmpty = false := by
      cases vd with
      | nil => exact absurd rfl hv
      | cons a as => rfl
    rw [show ("\x7b\x7bdate_1|LONGDATE\x7d\x7d" : String)
          = String.mk ('{' :: '{' :: (("date_1").data ++ '|' :: (("LONGDATE").data ++ ['}', '}'])))
        from rfl]
    rw [render_single_token_filt H _ _ _ (by decide) (by decide) (by decide) (by decide)]
    unfold tokenReplacement
    rw [show String.mk (("date_1").data) = "date_1" from rfl]
    simp [lookup, jsFalsy, hvd, startsWithDate, jsToString,
      show some (("LONGDATE").data) ≠ some (("shortdate").data) from by decide,
      show some (("LONGDATE").data) ≠ some (("longdate").data) from by decide]

/-- Witness for C10 at the concrete value "x". -/
theorem render_case_sensitive_lookup_and_filter_witness :
    render host0 "\x7b\x7bdate_1|LONGDATE\x7d\x7d" [("date_1", JSValue.vStr ("x"))] = "x" :=
  (render_case_sensitive_lookup_and_filter host0).2 "x" (by decide)

/-- C2: for a matched token with a non-empty (truthy) data value: when the
key does not begin with "date_" the raw stringified value is substituted
and every filter is ignored; when the key begins with "date_", the filter
"shortdate" substitutes formatDate(value, 'short') (the ambient-locale
abbreviated 2-digit-year formatter), the filter "longdate" substitutes
formatDate(value, 'long') (the ambient-locale full formatter), no filter
substitutes the raw value unmodified, and every other filter name falls
through to the raw value instead of raising an error. -/
theorem render_value_and_filter_dispatch :
    ∀ (H : Host) (data : JSData) (key : List Char) (v : JSValue),
      lookup data (String.mk key) = some v → jsFalsy v = false →
      ((startsWithDate key = false →
         ∀ filt, tokenReplacement H data key filt = jsToString v) ∧
       (startsWithDate key = true →
         tokenReplacement H data key (some (("shortdate").data))
           = jsToString (formatDate H v ("short")) ∧
         tokenReplacement H data key (some (("longdate").data))
           = jsToString (formatDate H v ("long")) ∧
         tokenReplacement H data key none = jsToString v ∧
         (∀ f, f ≠ ("shortdate").data → f ≠ ("longdate").data →
           tokenReplacement H data key (some f) = jsToString v))) := by
  intro H data key v hl hf
  unfold tokenReplacement
  rw [hl]
  simp only [Option.getD_some, hf, Bool.false_eq_true, if_false]
  constructor
  · intro hd filt
    simp [hd]
  · intro hd
    refine ⟨?_, ?_, ?_, ?_⟩
    · simp [hd]
    · simp [hd, show (("longdate").data : List Char) ≠ (("shortdate").data) from by decide]
    · simp [hd]
    · intro f h1 h2
      simp [hd, Option.some.injEq, h1, h2]

/-- Witness for C2 at the key "date_1" with value "2024-03-05" and filter
"shortdate". -/
theorem render_value_and_filter_dispatch_witness :
    lookup [("date_1", JSValue.vStr ("2024-03-05"))] (String.mk (("date_1").data))
      = some (JSValue.vStr ("2024-03-05")) ∧
    jsFalsy (JSValue.vStr ("2024-03-05")) = false ∧
    tokenReplacement host0 [("date_1", JSValue.vStr ("2024-03-05"))] (("date_1").data)
        (some (("shortdate").data))
      = jsToString (formatDate host0 (JSValue.vStr ("2024-03-05")) ("short")) :=
  ⟨by decide, by decide,
   ((render_value_and_filter_dispatch host0 _ _ _ (by decide) (by decide)).2 (by decide)).1⟩

/-- C8: during date-filter formatting, a value matching exactly YYYY-MM-DD
with valid components is parsed as local noon of that calendar date — for
every timezone offset the parsed timestamp plus the offset is noon of the
day number daysFromCivil y m d, and the formatted output applies the locale
formatter to exactly that day number, independent of the offset (no
timezone rollover); a shape-matching value with invalid components falls
back to the original string; every other truthy value goes through the
host general date parsing, and when that parsing fails the original value
is returned unchanged rather than failing the render. -/
theorem formatDate_local_noon_and_fallback :
    ∀ (H : Host) (l : List Char) (y m d : Nat) (style : String),
      (readYMD l = some (y, m, d) → validYMD y m d = true →
        parseYMDNoonMin H.tzOffset l
          = some (daysFromCivil y m d * 1440 + 720 - H.tzOffset) ∧
        (daysFromCivil y m d * 1440 + 720 - H.tzOffset) + H.tzOffset
          = daysFromCivil y m d * 1440 + 720 ∧
        formatDate H (JSValue.vStr (String.mk l)) style
          = JSValue.vStr (if style = "short" then H.fmtShort (daysFromCivil y m d)
                          else H.fmtLong (daysFromCivil y m d))) ∧
      (readYMD l = some (y, m, d) → validYMD y m d = false →
        formatDate H (JSValue.vStr (String.mk l)) style = JSValue.vStr (String.mk l)) ∧
      (∀ v : JSValue, jsFalsy v = false → readYMD ((jsToString v).data) = none →
        formatDate H v style
          = match H.generalParse v with
            | none => v
            | some t =>
              JSValue.vStr (if style = "short" then H.fmtShort ((t + H.tzOffset).fdiv 1440)
                            else H.fmtLong ((t + H.tzOffset).fdiv 1440))) := by
  intro H l y m d style
  refine ⟨?_, ?_, ?_⟩
  · intro hread hvalid
    have hne : l.isEmpty = false := by
      cases l with
      | nil => exact absurd hread (by simp [readYMD])
      | cons a as => rfl
    have hparse : parseYMDNoonMin H.tzOffset l
        = some (daysFromCivil y m d * 1440 + 720 - H.tzOffset) := by
      unfold parseYMDNoonMin
      rw [hread]
      simp [hvalid]
    refine ⟨hparse, by omega, ?_⟩
    unfold formatDate
    simp only [jsFalsy, jsToString, hne, Bool.false_eq_true, if_false, hread,
      Option.isSome_some, if_true, hparse]
    have hday : (daysFromCivil y m d * 1440 + 720 - H.tzOffset + H.tzOffset).fdiv 1440
        = daysFromCivil y m d := by
      rw [show daysFromCivil y m d * 1440 + 720 - H.tzOffset + H.tzOffset
            = daysFromCivil y m d * 1440 + 720 from by omega]
      exact fdiv_noon _
    rw [hday]
  · intro hread hvalid
    have hne : l.isEmpty = false := by
      cases l with
      | nil => exact absurd hread (by simp [readYMD])
      | cons a as => rfl
    have hparse : parseYMDNoonMin H.tzOffset l = none := by
      unfold parseYMDNoonMin
      rw [hread]
      simp [hvalid]
    unfold formatDate
    simp only [jsFalsy, jsToString, hne, Bool.false_eq_true, if_false, hread,
      Option.isSome_some, if_true, hparse]
  · intro v hfv hread
    unfold formatDate
    rw [hfv]
    simp only [Bool.false_eq_true, if_false]
    simp only [hread, Option.isSome_none, Bool.false_eq_true, if_false]

/-- Witness for C8 at "2024-03-05" with a UTC-8 host. -/
theorem formatDate_local_noon_and_fallback_witness :
    readYMD (("2024-03-05").data) = some (2024, 3, 5) ∧
    validYMD 2024 3 5 = true ∧
    formatDate host1 (JSValue.vStr (String.mk (("2024-03-05").data))) ("long")
      = JSValue.vStr (if ("long" : String) = "short" then host1.fmtShort (daysFromCivil 2024 3 5)
                      else host1.fmtLong (daysFromCivil 2024 3 5)) :=
  ⟨by decide, by decide,
   ((formatDate_local_noon_and_fallback host1 (("2024-03-05").data) 2024 3 5 ("long")).1
      (by decide) (by decide)).2.2⟩

/-- C9 counterexample: for t = "{{ {{a}} }}" and data {a: "x"} the (unique)
substituted value "x" contains no brace and in particular no token syntax,
yet render(t, data) = "{{ x }}" — the inner token is replaced and the
leftover literal braces combine with the substitution into a fresh token —
so render(render(t, data), data) = "" differs from render(t, data):
the claim as stated is false. -/
theorem render_idempotence_counterexample :
    hasToken ((jsToString (JSValue.vStr ("x"))).data) = false ∧
    render host0 "\x7b\x7b \x7b\x7ba\x7d\x7d \x7d\x7d" [("a", JSValue.vStr ("x"))]
      = "\x7b\x7b x \x7d\x7d" ∧
    render host0 (render host0 "\x7b\x7b \x7b\x7ba\x7d\x7d \x7d\x7d" [("a", JSValue.vStr ("x"))])
        [("a", JSValue.vStr ("x"))] = "" ∧
    render host0 (render host0 "\x7b\x7b \x7b\x7ba\x7d\x7d \x7d\x7d" [("a", JSValue.vStr ("x"))])
        [("a", JSValue.vStr ("x"))]
      ≠ render host0 "\x7b\x7b \x7b\x7ba\x7d\x7d \x7d\x7d" [("a", JSValue.vStr ("x"))] :=
  ⟨by decide, by decide, by decide, by decide⟩

/-- C9 (amended): rendering is idempotent whenever the first render's output
contains no placeholder token — render is the identity on token-free
strings, so render(render(t, d), d) = render(t, d) whenever render(t, d)
has no token; the absence of token syntax inside the substituted values
alone does not guarantee this, because literal text and substitutions can
combine into new tokens. -/
theorem render_idempotent_on_token_free_output :
    ∀ (H : Host) (t : String) (d : JSData),
      hasToken ((render H t d).data) = false →
      render H (render H t d) d = render H t d :=
  fun H t d h => render_eq_self_of_token_free H d (render H t d) h

/-- Witness for the amended C9 at a template whose output is token free. -/
theorem render_idempotent_on_token_free_output_witness :
    hasToken ((render host0 "hi \x7b\x7ba\x7d\x7d" [("a", JSValue.vStr ("x"))]).data) = false ∧
    render host0 (render host0 "hi \x7b\x7ba\x7d\x7d" [("a", JSValue.vStr ("x"))])
        [("a", JSValue.vStr ("x"))]
      = render host0 "hi \x7b\x7ba\x7d\x7d" [("a", JSValue.vStr ("x"))] :=
  ⟨by decide, render_idempotent_on_token_free_output host0 _ _ (by decide)⟩

/-- C3: missingFields returns the distinct placeholder keys of the template
(the filter suffix ignored, so a key used with different filters is counted
once), restricted to keys whose value in data is absent, null/undefined, or
a string that trims to empty; the sequence has no duplicates and is ordered
by first appearance in the template (a sublist of the deduplicated scan
order); on the concrete examples,
missingFields("Hi {{first_name}}, re {{company_name}}", {first_name: "Sam"})
is exactly ["company_name"], and a key used with two different date filters
is reported once. -/
theorem missingFields_spec :
    (missingFields "Hi \x7b\x7bfirst_name\x7d\x7d, re \x7b\x7bcompany_name\x7d\x7d"
        [("first_name", JSValue.vStr ("Sam"))] = ["company_name"]) ∧
    (missingFields "\x7b\x7bdate_1|longdate\x7d\x7d and \x7b\x7bdate_1|shortdate\x7d\x7d" []
        = ["date_1"]) ∧
    (∀ (t : String) (d : JSData), (missingFields t d).Nodup) ∧
    (∀ (t : String) (d : JSData),
      (missingFields t d).Sublist (firstDedup (scanKeysLoop t.data.length t.data))) ∧
    (∀ (t : String) (d : JSData) (k : String),
      k ∈ missingFields t d ↔ (k ∈ scanKeysLoop t.data.length t.data ∧ missingVal d k = true)) := by
  refine ⟨by decide, by decide, ?_, ?_, ?_⟩
  · intro t d
    exact (firstDedup_nodup (scanKeysLoop t.data.length t.data)).filter _
  · intro t d
    exact List.filter_sublist _
  · intro t d k
    unfold missingFields
    rw [List.mem_filter, firstDedup_mem]

/-- C4: when no folder has the given id, deleteFolder returns false and
changes nothing; otherwise it returns true, in "keep" mode every template
of the folder gets folderId null while all templates survive (the template
list is mapped in place), in "deleteTemplates" mode exactly the templates
of the folder are removed, and in both modes the folder itself disappears
from the folder list. -/
theorem deleteFolder_spec :
    ∀ (id mode : String) (s : Store),
      ((∀ f ∈ s.folders, f.id ≠ id) → deleteFolder id mode s = (false, s)) ∧
      ((∃ f ∈ s.folders, f.id = id) →
        (deleteFolder id mode s).1 = true ∧
        (deleteFolder id "keep" s).2.templates
          = s.templates.map (fun t =>
              if t.folderId = some id then { t with folderId := none } else t) ∧
        (deleteFolder id "deleteTemplates" s).2.templates
          = s.templates.filter (fun t => t.folderId ≠ some id) ∧
        ((s.folders.map Folder.id).Nodup →
          id ∉ (deleteFolder id mode s).2.folders.map Folder.id)) := by
  intro id mode s
  have hiff : (s.folders.any (fun f => f.id == id) = true) ↔ ∃ f ∈ s.folders, f.id = id := by
    simp [List.any_eq_true]
  constructor
  · intro h
    have hfalse : s.folders.any (fun f => f.id == id) = false := by
      rw [← Bool.not_eq_true, hiff]
      rintro ⟨f, hf, hid⟩
      exact h f hf hid
    simp [deleteFolder, hfalse]
  · intro h
    have ha : s.folders.any (fun f => f.id == id) = true := hiff.mpr h
    refine ⟨?_, ?_, ?_, ?_⟩
    · simp [deleteFolder, ha]
    · simp [deleteFolder, ha, show ("keep" : String) ≠ "deleteTemplates" from by decide]
    · simp [deleteFolder, ha]
    · intro hnd
      simp only [deleteFolder, ha, if_true]
      exact eraseP_id_not_mem id s.folders hnd

/-- Witness for C4 on storeC4. -/
theorem deleteFolder_spec_witness :
    (deleteFolder "f1" "keep" storeC4).1 = true ∧
    (deleteFolder "f1" "keep" storeC4).2.templates
      = storeC4.templates.map (fun t =>
          if t.folderId = some ("f1") then { t with folderId := none } else t) ∧
    (deleteFolder "f1" "deleteTemplates" storeC4).2.templates
      = storeC4.templates.filter (fun t => t.folderId ≠ some ("f1")) ∧
    "f1" ∉ (deleteFolder "f1" "keep" storeC4).2.folders.map Folder.id :=
  ⟨((deleteFolder_spec "f1" "keep" storeC4).2 (by decide)).1,
   ((deleteFolder_spec "f1" "keep" storeC4).2 (by decide)).2.1,
   ((deleteFolder_spec "f1" "keep" storeC4).2 (by decide)).2.2.1,
   ((deleteFolder_spec "f1" "keep" storeC4).2 (by decide)).2.2.2 (by decide)⟩

/-- C5: settings.sampleSeeded goes from false to true at most once over the
store's lifetime through the API: ensureSampleTemplate is a no-op once
sampleSeeded is true; it always leaves sampleSeeded true; it injects the
sample template exactly when sampleSeeded is not yet true and the template
list is empty, and injects nothing when templates exist; after a first run
on an empty unseeded store followed by deletion of the sample, a later
invocation of the first-run check is a no-op and reintroduces nothing; and
no other store operation ever touches settings, so sampleSeeded never
reverts. -/
theorem ensureSampleTemplate_spec :
    ∀ (freshId now : String) (s : Store),
      (s.settings.sampleSeeded = true → ensureSampleTemplate freshId now s = s) ∧
      ((ensureSampleTemplate freshId now s).settings.sampleSeeded = true) ∧
      (s.settings.sampleSeeded = false → s.templates = [] →
        (ensureSampleTemplate freshId now s).templates = [sampleTemplate freshId now]) ∧
      (s.settings.sampleSeeded = false → s.templates ≠ [] →
        (ensureSampleTemplate freshId now s).templates = s.templates) ∧
      (s.settings.sampleSeeded = false → s.templates = [] →
        ((deleteTemplate (sampleTemplate freshId now).id
            (ensureSampleTemplate freshId now s)).2.templates = [] ∧
         ∀ freshId2 now2 : String,
           ensureSampleTemplate freshId2 now2
               (deleteTemplate (sampleTemplate freshId now).id
                 (ensureSampleTemplate freshId now s)).2
             = (deleteTemplate (sampleTemplate freshId now).id
                 (ensureSampleTemplate freshId now s)).2)) ∧
      (∀ (i n nm : String), (createFolder i n nm s).2.settings = s.settings) ∧
      (∀ (i nm : String), (renameFolder i nm s).2.settings = s.settings) ∧
      (∀ (i mode : String), (deleteFolder i mode s).2.settings = s.settings) ∧
      (∀ (ids : List String) (fid : Option String),
        (moveTemplatesToFolder ids fid s).2.settings = s.settings) ∧
      (∀ (i n nm sb ct : String) (fid : Option String),
        (createTemplate i n nm sb ct fid s).2.settings = s.settings) ∧
      (∀ (n i : String) (p : Patch), (updateTemplate n i p s).2.settings = s.settings) ∧
      (∀ (i : String), (deleteTemplate i s).2.settings = s.settings) := by
  intro freshId now s
  have hseed : ∀ h : Store, h.settings.sampleSeeded = true →
      ensureSampleTemplate freshId now h = h := by
    intro h hh
    unfold ensureSampleTemplate
    simp [hh]
  have hens : s.settings.sampleSeeded = false → s.templates = [] →
      ensureSampleTemplate freshId now s
        = { s with templates := [sampleTemplate freshId now], settings := ⟨true⟩ } := by
    intro h1 h2
    unfold ensureSampleTemplate
    simp [h1, h2]
  refine ⟨hseed s, ?_, ?_, ?_, ?_, ?_, ?_, ?_, ?_, ?_, ?_, ?_⟩
  · unfold ensureSampleTemplate
    by_cases h : s.settings.sampleSeeded = true
    · simp [h]
    · simp [h]
  · intro h1 h2
    rw [hens h1 h2]
  · intro h1 h2
    unfold ensureSampleTemplate
    simp [h1, List.length_eq_zero, h2]
  · intro h1 h2
    rw [hens h1 h2]
    have hdel : (deleteTemplate (sampleTemplate freshId now).id
        { s with templates := [sampleTemplate freshId now], settings := ⟨true⟩ }).2
        = { s with templates := [], settings := ⟨true⟩ } := by
      unfold deleteTemplate
      simp [List.eraseP_cons_of_pos]
    rw [hdel]
    constructor
    · rfl
    · intro i2 n2
      unfold ensureSampleTemplate
      simp
  · intro i n nm; rfl
  · intro i nm
    unfold renameFolder
    by_cases h : s.folders.any (fun f => f.id == i)
    · simp [h]
    · simp [h]
  · intro i mode
    unfold deleteFolder
    by_cases h : s.folders.any (fun f => f.id == i)
    · simp [h]
    · simp [h]
  · intro ids fid; rfl
  · intro i n nm sb ct fid; rfl
  · intro n i p
    unfold updateTemplate
    by_cases h : s.templates.any (fun t => t.id == i)
    · simp [h]
    · simp [h]
  · intro i
    unfold deleteTemplate
    by_cases h : s.templates.any (fun t => t.id == i)
    · simp [h]
    · simp [h]

/-- Witness for C5: the first-run scenario on an empty unseeded store and
the no-op on a seeded store. -/
theorem ensureSampleTemplate_spec_witness :
    ensureSampleTemplate "i1" "T0" (Store.mk 1 [] [] (Settings.mk true))
      = Store.mk 1 [] [] (Settings.mk true) ∧
    (ensureSampleTemplate "i1" "T0" (Store.mk 1 [] [] (Settings.mk false))).templates
      = [sampleTemplate "i1" "T0"] ∧
    (deleteTemplate (sampleTemplate "i1" "T0").id
        (ensureSampleTemplate "i1" "T0" (Store.mk 1 [] [] (Settings.mk false)))).2.templates
      = [] ∧
    ensureSampleTemplate "i2" "T1"
        (deleteTemplate (sampleTemplate "i1" "T0").id
          (ensureSampleTemplate "i1" "T0" (Store.mk 1 [] [] (Settings.mk false)))).2
      = (deleteTemplate (sampleTemplate "i1" "T0").id
          (ensureSampleTemplate "i1" "T0" (Store.mk 1 [] [] (Settings.mk false)))).2 :=
  ⟨(ensureSampleTemplate_spec "i1" "T0" _).1 (by decide),
   (ensureSampleTemplate_spec "i1" "T0" _).2.2.1 (by decide) (by decide),
   ((ensureSampleTemplate_spec "i1" "T0" _).2.2.2.2.1 (by decide) (by decide)).1,
   ((ensureSampleTemplate_spec "i1" "T0" _).2.2.2.2.1 (by decide) (by decide)).2 "i2" "T1"⟩

/-- C6: updateTemplate returns false and changes nothing when no template
has the given id; when the id is present (in a store with unique template
ids) it returns true and patches exactly that template with applyPatch;
applyPatch applies only the fields present in the patch, a name that is
empty after trimming preserves the previous name, and updatedAt is set to
the supplied current time on every successful call — in particular a patch
of only a blank name changes nothing but updatedAt. -/
theorem updateTemplate_spec :
    ∀ (now id : String) (p : Patch) (s : Store),
      ((∀ t ∈ s.templates, t.id ≠ id) → updateTemplate now id p s = (false, s)) ∧
      ((s.templates.map Template.id).Nodup → (∃ t ∈ s.templates, t.id = id) →
        updateTemplate now id p s
          = (true, { s with templates :=
              s.templates.map (fun t => if t.id = id then applyPatch now p t else t) })) ∧
      (∀ t : Template, (applyPatch now p t).updatedAt = now) ∧
      (∀ (t : Template) (nm : String), p.name = some nm → (jsTrim nm).data.isEmpty = true →
        (applyPatch now p t).name = t.name) ∧
      (p.name = none → ∀ t : Template, (applyPatch now p t).name = t.name) ∧
      (p.subject = none → ∀ t : Template, (applyPatch now p t).subject = t.subject) ∧
      (p.content = none → ∀ t : Template, (applyPatch now p t).content = t.content) ∧
      (p.folderId = none → ∀ t : Template, (applyPatch now p t).folderId = t.folderId) ∧
      (∀ (t : Template) (nm : String), (jsTrim nm).data.isEmpty = true →
        applyPatch now (Patch.mk (some nm) none none none) t = { t with updatedAt := now }) := by
  intro now id p s
  obtain ⟨pn, ps, pc, pf⟩ := p
  refine ⟨?_, ?_, ?_, ?_, ?_, ?_, ?_, ?_, ?_⟩
  · intro h
    have hfalse : s.templates.any (fun t => t.id == id) = false := by
      rw [← Bool.not_eq_true]
      simp only [List.any_eq_true, beq_iff_eq]
      rintro ⟨t, ht, hid⟩
      exact h t ht hid
    simp [updateTemplate, hfalse]
  · intro hnd h
    have ha : s.templates.any (fun t => t.id == id) = true := by
      simp only [List.any_eq_true, beq_iff_eq]
      exact h
    simp only [updateTemplate, ha, if_true]
    rw [updateFirst_eq_map_of_nodup _ id s.templates hnd]
  · intro t
    rcases pn with _ | nm <;> rcases ps with _ | sb <;> rcases pc with _ | ct <;>
      rcases pf with _ | fid <;> rfl
  · intro t nm hnm hemp
    cases hnm
    rcases ps with _ | sb <;> rcases pc with _ | ct <;> rcases pf with _ | fid <;>
      simp [applyPatch, hemp]
  · intro hnone t
    cases hnone
    rcases ps with _ | sb <;> rcases pc with _ | ct <;> rcases pf with _ | fid <;> rfl
  · intro hnone t
    cases hnone
    rcases pn with _ | nm <;> rcases pc with _ | ct <;> rcases pf with _ | fid <;> rfl
  · intro hnone t
    cases hnone
    rcases pn with _ | nm <;> rcases ps with _ | sb <;> rcases pf with _ | fid <;> rfl
  · intro hnone t
    cases hnone
    rcases pn with _ | nm <;> rcases ps with _ | sb <;> rcases pc with _ | ct <;> rfl
  · intro t nm hemp
    simp [applyPatch, hemp]

/-- Witness for C6: a blank-name patch leaves the name but advances
updatedAt, and updateTemplate applies it to the matching template. -/
theorem updateTemplate_spec_witness :
    applyPatch "T1" (Patch.mk (some ("  ")) none none none) tplC6
      = { tplC6 with updatedAt := ("T1") } ∧
    updateTemplate "T1" "t1" (Patch.mk (some ("  ")) none none none) storeC6
      = (true, { storeC6 with templates :=
          storeC6.templates.map (fun t =>
            if t.id = "t1" then applyPatch "T1" (Patch.mk (some ("  ")) none none none) t
            else t) }) :=
  ⟨(updateTemplate_spec "T1" "t1" (Patch.mk (some ("  ")) none none none) storeC6).2.2.2.2.2.2.2.2
     tplC6 "  " (by decide),
   (updateTemplate_spec "T1" "t1" (Patch.mk (some ("  ")) none none none) storeC6).2.1
     (by decide) (by decide)⟩

/-- C7 counterexample: moveTemplatesToFolder mutates a template's folderId
(from null to "f1") but leaves its updatedAt unchanged at "T0", so it is
not the case that every store operation that mutates a template refreshes
that template's updatedAt timestamp. -/
theorem moveTemplates_updatedAt_counterexample :
    (moveTemplatesToFolder ["t1"] (some ("f1"))
        (Store.mk 1 [] [⟨"t1", "A", "", "b", none, "T0", "T0"⟩] (Settings.mk true))).2.templates
      = [⟨"t1", "A", "", "b", some ("f1"), "T0", "T0"⟩] ∧
    (moveTemplatesToFolder ["t1"] (some ("f1"))
        (Store.mk 1 [] [⟨"t1", "A", "", "b", none, "T0", "T0"⟩] (Settings.mk true))).2.templates.map
        Template.updatedAt
      = ["T0"] :=
  ⟨by decide, by decide⟩

/-- C7 (amended): createTemplate and updateTemplate set updatedAt to the
current time, but the two other operations that mutate a template's
folderId — moveTemplatesToFolder, and deleteFolder in "keep" mode — leave
every template's updatedAt unchanged. -/
theorem updatedAt_refresh_only_on_update :
    ∀ (ids : List String) (fid : Option String) (s : Store) (id now : String)
      (p : Patch) (t : Template),
      (moveTemplatesToFolder ids fid s).2.templates.map Template.updatedAt
        = s.templates.map Template.updatedAt ∧
      (deleteFolder id "keep" s).2.templates.map Template.updatedAt
        = s.templates.map Template.updatedAt ∧
      (applyPatch now p t).updatedAt = now ∧
      (createTemplate id now "n" "sb" "ct" none s).1.updatedAt = now := by
  intro ids fid s id now p t
  refine ⟨?_, ?_, ?_, rfl⟩
  · unfold moveTemplatesToFolder
    simp only [List.map_map]
    apply List.map_congr_left
    intro a _
    by_cases h : a.id ∈ ids <;> simp [h]
  · unfold deleteFolder
    by_cases h : s.folders.any (fun f => f.id == id)
    · simp only [h, if_true, show ("keep" : String) = "deleteTemplates" ↔ False from by simp,
        if_false]
      simp only [List.map_map]
      apply List.map_congr_left
      intro a _
      by_cases hfid : a.folderId = some id <;> simp [hfid]
    · simp [h]
  · obtain ⟨pn, ps, pc, pf⟩ := p
    rcases pn with _ | nm <;> rcases ps with _ | sb <;> rcases pc with _ | ct <;>
      rcases pf with _ | fid2 <;> rfl
